import Mathlib

/-!
Verification of the PSD layer processor (src/psd_layer_processor.py).

The layered document produced by the external PSD parsing collaborator is
modelled as a tree of layers.  Conventions of the embedding:

- Every layer node carries the attributes the processor reads: name,
  visibility flag, group flag, raster content (for pixel layers), opacity
  (a rational in the 0 to 1 range, per the data model of the spec) and a
  stored offset.
- Child lists are kept in stored file order, which for the PSD format and
  its parser is bottom-most layer first; the descendant traversal of the
  parser yields layers in preorder over that stored order.
- The parent of a top-level layer is the document root, whose name is
  the string root after lower-casing, matching both the parser root
  object and the explicit fallback in the code.
- Python str.lower and str.strip are modelled character-wise on the
  underlying character list (ASCII case mapping, as in Char.toLower).
- Logging, JPEG encoding, file hashing and garbage collection are
  external I/O effects with no bearing on the computed values; they are
  omitted.
-/

/-- Python str.lower modelled character-wise. -/
def py_lower (s : String) : String := String.mk (s.data.map Char.toLower)

/-- Python str.strip modelled character-wise: drop whitespace from both ends. -/
def py_strip (s : String) : String :=
  String.mk (((s.data.dropWhile Char.isWhitespace).reverse.dropWhile Char.isWhitespace).reverse)

/-- Pixel value with red, green, blue and alpha channels on the 0 to 255
scale; rationals model exact channel arithmetic. -/
structure RGBA where
  r : ℚ
  g : ℚ
  b : ℚ
  a : ℚ
deriving DecidableEq

/-- Raster image: dimensions, a mode flag (RGBA when hasAlpha is true, RGB
otherwise) and a total pixel function; pixels outside the rectangle from
(0, 0) to (width, height) are irrelevant. -/
structure Img where
  width : Nat
  height : Nat
  hasAlpha : Bool
  px : Int → Int → RGBA

/-- Attributes of a single layer that the processor reads. -/
structure LayerData where
  name : String
  visible : Bool
  isGroup : Bool
  pix : Option Img
  opacity : ℚ
  offX : Int
  offY : Int

mutual
inductive LTree : Type where
| node : LayerData → LForest → LTree
inductive LForest : Type where
| nil : LForest
| cons : LTree → LForest → LForest
end

/-- Data record of the root node of a subtree. -/
def LTree.data : LTree → LayerData
| .node d _ => d

/-- Child forest of the root node of a subtree. -/
def LTree.kids : LTree → LForest
| .node _ f => f

/-- Immediate layer data of each tree of a forest (one level only). -/
def LForest.dataList : LForest → List LayerData
| .nil => []
| .cons t f => t.data :: f.dataList

/-- Build a forest from a list of trees. -/
def LForest.ofList : List LTree → LForest
| [] => .nil
| t :: ts => .cons t (LForest.ofList ts)

mutual
/-- Preorder descendant traversal of a subtree, pairing every layer with
the raw name of its immediate parent.  Models psd.descendants() together
with the parent lookups the processor performs on each yielded layer. -/
def LTree.descWithParent : String → LTree → List (String × LayerData)
| parent, .node d f => (parent, d) :: LForest.descWithParent d.name f
/-- Preorder descendant traversal of a forest (see LTree.descWithParent). -/
def LForest.descWithParent : String → LForest → List (String × LayerData)
| _, .nil => []
| parent, .cons t f => LTree.descWithParent parent t ++ LForest.descWithParent parent f
end

/-- The parsed document: canvas size plus the top-level layer stack. -/
structure Document where
  width : Nat
  height : Nat
  layers : LForest

/-- All layers of the document in parser traversal order, each paired with
the raw name of its immediate parent (the root is named root). -/
def Document.descendants (doc : Document) : List (String × LayerData) :=
  LForest.descWithParent "root" doc.layers

/-- The five required top-level groups, from the constructor (line 46). -/
def required_groups : List String := ["@main", "camera", "colors", "base", "bg"]

/-- Names of the top-level layers that are groups, in order; embedded from
the first loop of validate_psd_structure (lines 88 to 91). -/
def top_group_names (doc : Document) : List String :=
  doc.layers.dataList.foldl (fun acc d => if d.isGroup then acc ++ [d.name] else acc) []

/-- First top-level group with the exact given name; embedded from
get_group_by_name (lines 112 to 125). -/
def find_group : LForest → String → Option LTree
| .nil, _ => none
| .cons t f, g => if t.data.isGroup = true ∧ t.data.name = g then some t else find_group f g

/-- Wrapper of find_group at the document level. -/
def get_group_by_name (doc : Document) (g : String) : Option LTree :=
  find_group doc.layers g

/-- Membership test for the substring metalware, modelled on character
lists; leading-segment comparison helper. -/
def chars_start_with : List Char → List Char → Bool
| [], _ => true
| _ :: _, [] => false
| p :: ps, c :: cs => decide (p = c) && chars_start_with ps cs

/-- Substring containment on character lists. -/
def chars_have_sub (pat : List Char) : List Char → Bool
| [] => chars_start_with pat []
| c :: cs => chars_start_with pat (c :: cs) || chars_have_sub pat cs

/-- Warning flag of validate_psd_structure (lines 98 to 104): true when the
main group exists and no immediate child name contains metalware after
lower-casing.  Logged only; it never affects the validation result. -/
def metalware_missing_warning (doc : Document) : Bool :=
  match get_group_by_name doc "@main" with
  | some t => ! t.kids.dataList.any (fun d => chars_have_sub "metalware".data (py_lower d.name).data)
  | none => false

/-- Structure validation, embedded from validate_psd_structure (lines 80 to
110): every required group name must occur, by exact string match, among
the names of the top-level groups.  The metalware check that follows in
the code only logs a warning (see metalware_missing_warning) and the
function then returns true regardless, so the result depends on the
top-level group names alone. -/
def validate_psd_structure (doc : Document) : Bool :=
  required_groups.all (fun g => decide (g ∈ top_group_names doc))

/-- Color extraction over the immediate children of a group, embedded from
the loop of get_layer_colors (lines 141 to 148): lower-case then strip
each non-empty child name, keep first occurrences only. -/
def collect_colors (ds : List LayerData) : List String :=
  ds.foldl (fun colors d =>
    if d.name ≠ "" then
      if py_strip (py_lower d.name) ≠ "" ∧ ¬ py_strip (py_lower d.name) ∈ colors
        then colors ++ [py_strip (py_lower d.name)] else colors
    else colors) []

/-- Embedded from get_layer_colors (lines 127 to 149). -/
def get_layer_colors (doc : Document) (g : String) : List String :=
  match get_group_by_name doc g with
  | none => []
  | some t => collect_colors t.kids.dataList

/-- Embedded from validate_color_pairs (lines 151 to 173): an insertion
ordered dictionary keyed by the camera colors (which carry no duplicates),
marking each with membership in the colors and base groups. -/
def validate_color_pairs (doc : Document) : List (String × Bool) :=
  let camera_colors := get_layer_colors doc "camera"
  let colors_group_colors := get_layer_colors doc "colors"
  let base_colors := get_layer_colors doc "base"
  camera_colors.map (fun c =>
    (c, decide (c ∈ colors_group_colors) && decide (c ∈ base_colors)))

/-- The list comprehension of generate_variants (line 572): colors whose
validation flag is true, in dictionary order. -/
def valid_color_names (doc : Document) : List String :=
  (validate_color_pairs doc).filterMap (fun p => if p.2 then some p.1 else none)

/-- The all_colors set of set_layer_visibility_fixed (lines 198 to 201).
The code builds a Python set and uses it only through membership tests, so
a concatenated list with list membership is an exact model. -/
def all_colors (doc : Document) : List String :=
  get_layer_colors doc "camera" ++ get_layer_colors doc "colors" ++ get_layer_colors doc "base"

/-- Per-layer visibility decision of set_layer_visibility_fixed, embedded
from the body of the descendant loop (lines 215 to 297).  The layer name
is lower-cased and stripped (line 219); the parent name is lower-cased
only (line 220); the target is lower-cased where compared. -/
def vis_rule (ac : List String) (target : String) (parentRaw nameRaw : String) : Bool :=
  if py_lower parentRaw = "bg" then true
  else if py_lower parentRaw = "base" then
    if py_strip (py_lower nameRaw) = py_lower target then true
    else if py_strip (py_lower nameRaw) ∈ ac then false
    else true
  else if py_lower parentRaw = "colors" then
    if py_strip (py_lower nameRaw) = py_lower target then true
    else if py_strip (py_lower nameRaw) ∈ ac then false
    else true
  else if py_lower parentRaw = "camera" then
    if py_strip (py_lower nameRaw) = py_lower target then true
    else if py_strip (py_lower nameRaw) ∈ ac then false
    else true
  else if py_lower parentRaw = "@main" then
    if py_strip (py_lower nameRaw) ∈ ac then decide (py_strip (py_lower nameRaw) = py_lower target)
    else true
  else if py_lower parentRaw ∈ ac then decide (py_lower parentRaw = py_lower target)
  else true

/-- Step 1 of set_layer_visibility_fixed (lines 206 to 212): force-show the
five canonical container groups among the top-level layers. -/
def show_container_groups : LForest → LForest
| .nil => .nil
| .cons (.node d f) rest =>
  .cons
    (.node
      (if d.isGroup = true ∧ py_strip (py_lower d.name) ∈ ["bg", "base", "colors", "camera", "@main"]
        then { d with visible := true } else d)
      f)
    (show_container_groups rest)

mutual
/-- Step 2 of set_layer_visibility_fixed (lines 214 to 297) on a subtree:
every descendant receives the visibility computed by vis_rule from its
immediate parent name and its own name. -/
def LTree.applyVis (ac : List String) (target : String) (parent : String) : LTree → LTree
| .node d f =>
  .node { d with visible := vis_rule ac target parent d.name } (LForest.applyVis ac target d.name f)
/-- Step 2 of set_layer_visibility_fixed on a forest (see LTree.applyVis). -/
def LForest.applyVis (ac : List String) (target : String) (parent : String) : LForest → LForest
| .nil => .nil
| .cons t f => .cons (LTree.applyVis ac target parent t) (LForest.applyVis ac target parent f)
end

/-- Whole visibility resolution pass, embedded from
set_layer_visibility_fixed (lines 188 to 297): compute all_colors, then
step 1 (containers) followed by step 2 (every descendant).  The code
computes all_colors from the processor state self.psd, which holds the
same document as the fresh copy being mutated. -/
def set_layer_visibility_fixed (doc : Document) (target : String) : Document :=
  { doc with layers := LForest.applyVis (all_colors doc) target "root" (show_container_groups doc.layers) }

/-- Visibility self-check, embedded from validate_visibility_settings
(lines 433 to 476): count, across the whole resolved tree, visible
color-named layers of the target versus other colors, both among direct
children of the three color groups and inside per-color subgroups; pass
when at least one target layer and no other color layer is visible.  The
all_colors set is computed from the processor state (the original
document). -/
def validate_visibility_settings (orig : Document) (psd : Document) (target : String) : Bool :=
  let ac := all_colors orig
  let counts := (Document.descendants psd).foldl
    (fun acc pd =>
      let layer_name := py_strip (py_lower pd.2.name)
      let parent_name := py_lower pd.1
      if (parent_name = "colors" ∨ parent_name = "camera" ∨ parent_name = "base")
          ∧ layer_name ∈ ac then
        if pd.2.visible then
          if layer_name = py_lower target then (acc.1 + 1, acc.2) else (acc.1, acc.2 + 1)
        else acc
      else if parent_name ∈ ac then
        if pd.2.visible then
          if parent_name = py_lower target then (acc.1 + 1, acc.2) else (acc.1, acc.2 + 1)
        else acc
      else acc)
    ((0, 0) : Nat × Nat)
  decide (0 < counts.1) && decide (counts.2 = 0)

/-- Blank single-color canvas in RGB mode, modelling Image.new. -/
def Img.new_rgb (w h : Nat) (c : RGBA) : Img :=
  { width := w, height := h, hasAlpha := false, px := fun _ _ => c }

/-- Alpha scaling, modelling putalpha of the point-scaled alpha band
(lines 366 to 368): every pixel keeps its color and has its alpha channel
multiplied by the opacity. -/
def apply_opacity (img : Img) (o : ℚ) : Img :=
  { img with px := fun x y => { img.px x y with a := (img.px x y).a * o } }

/-- PIL paste of an image onto a canvas at an offset (lines 371 to 380).
When the pasted image carries alpha it is used as the mask, blending each
channel toward the source by alpha over 255; otherwise the source pixel
overwrites the region.  The canvas keeps its own mode, so only the color
channels of the canvas change. -/
def paste (canvas img : Img) (left top : Int) : Img :=
  { canvas with px := fun x y =>
      if 0 ≤ x ∧ x < (canvas.width : Int) ∧ 0 ≤ y ∧ y < (canvas.height : Int)
          ∧ left ≤ x ∧ x < left + (img.width : Int)
          ∧ top ≤ y ∧ y < top + (img.height : Int) then
        let p := img.px (x - left) (y - top)
        let q := canvas.px x y
        if img.hasAlpha then
          { r := q.r + (p.r - q.r) * p.a / 255
            g := q.g + (p.g - q.g) * p.a / 255
            b := q.b + (p.b - q.b) * p.a / 255
            a := q.a }
        else
          { r := p.r, g := p.g, b := p.b, a := q.a }
      else canvas.px x y }

/-- One iteration of the manual flatten loop (lines 357 to 383): skip
hidden layers and layers without raster content; scale alpha by opacity
when the opacity is below one and the layer image carries alpha; paste at
the stored offset. -/
def flatten_step (canvas : Img) (pd : String × LayerData) : Img :=
  if pd.2.visible then
    match pd.2.pix with
    | some layer_img =>
      let layer_img :=
        if pd.2.opacity < 1 ∧ layer_img.hasAlpha then apply_opacity layer_img pd.2.opacity
        else layer_img
      paste canvas layer_img pd.2.offX pd.2.offY
    | none => canvas
  else canvas

/-- Manual flatten fallback, embedded from lines 349 to 384: a solid
white RGB canvas of the document size, folded over the full descendant
traversal in stored order (bottom-most first). -/
def flattened_composite (doc : Document) : Img :=
  (Document.descendants doc).foldl flatten_step (Img.new_rgb doc.width doc.height ⟨255, 255, 255, 255⟩)

/-- PIL convert to RGB (lines 411 to 413): drop the alpha band, keeping
the color channels and the dimensions. -/
def to_rgb (img : Img) : Img :=
  if img.hasAlpha then
    { img with hasAlpha := false, px := fun x y => { img.px x y with a := 255 } }
  else img

/-- The fixed-size debug placeholder canvas (line 399): 800 by 600, red. -/
def debug_image : Img := Img.new_rgb 800 600 ⟨255, 0, 0, 255⟩

/-- Result of a render: the image plus the diagnostic texts drawn on it
(non-empty exactly on the debug placeholder path; the rasterization of
the text by the drawing library is external). -/
structure Rendered where
  img : Img
  debug_texts : List String

/-- Tier 1 acceptance of render_layer_combination_fixed (lines 336 to
346).  The native composite is performed by the external rendering
engine, so its outcome enters as an oracle argument: none when the engine
raised or returned nothing, otherwise the produced image; it is kept
only when both dimensions exceed one. -/
def native_accepted (native : Option Img) : Option Img :=
  match native with
  | some img => if 1 < img.width ∧ 1 < img.height then some img else none
  | none => none

/-- Tiers 2 and 3 of render_layer_combination_fixed (lines 348 to 409),
on the already resolved document: the manual flatten fallback is accepted
when both dimensions exceed one, otherwise the fixed-size debug
placeholder carrying the diagnostic texts of lines 406 and 407 is
produced, with the pass flag of the visibility self-check. -/
def fallback_render (doc : Document) (color_name : String) : Rendered :=
  if 1 < (flattened_composite (set_layer_visibility_fixed doc color_name)).width
      ∧ 1 < (flattened_composite (set_layer_visibility_fixed doc color_name)).height then
    { img := to_rgb (flattened_composite (set_layer_visibility_fixed doc color_name))
      debug_texts := [] }
  else
    { img := debug_image
      debug_texts := ["Render failed for: " ++ color_name,
        "Validation: " ++
          (if validate_visibility_settings doc (set_layer_visibility_fixed doc color_name)
              color_name then "PASSED" else "FAILED")] }

/-- Render pass, embedded from render_layer_combination_fixed (lines 299
to 431): resolve visibility on a fresh copy of the document, run the
visibility self-check, then try the three tiers in order (tier 1 is
native_accepted, tiers 2 and 3 are fallback_render); accepted images are
converted to RGB (lines 411 to 413). -/
def render_layer_combination_fixed (doc : Document) (color_name : String) (native : Option Img) :
    Rendered :=
  match native_accepted native with
  | some img => { img := to_rgb img, debug_texts := [] }
  | none => fallback_render doc color_name

/-- One generated variant.  The file-byte size and the two digests of
generate_variants are produced by external hashing and storage
collaborators and are omitted from the model. -/
structure Variant where
  filename : String
  color : String
  width : Nat
  height : Nat

/-- Embedded from generate_variants (lines 559 to 642): walk the valid
colors in order, render each, skip a color when the rendered image has a
dimension of at most one (the check of lines 593 to 595), and append the
variant record with the filename pattern of line 602.  The native
composite oracle is per color. -/
def generate_variants (doc : Document) (stem : String) (native : String → Option Img) :
    List Variant :=
  (valid_color_names doc).filterMap (fun color =>
    let variant_image := (render_layer_combination_fixed doc color (native color)).img
    if variant_image.width ≤ 1 ∨ variant_image.height ≤ 1 then none
    else some
      { filename := stem ++ "-" ++ color ++ "-metalware_1.jpg"
        color := color
        width := variant_image.width
        height := variant_image.height })

/-- Embedded from process (lines 677 to 702) together with load_psd (lines
51 to 78): the loaded argument is none when opening the file raised; a
loaded document must pass structure validation; a run with an empty
variant list fails. -/
def process : Option Document → String → (String → Option Img) → Bool × List Variant
| none, _, _ => (false, [])
| some doc, stem, native =>
  if validate_psd_structure doc then
    if (generate_variants doc stem native).isEmpty then (false, [])
    else (true, generate_variants doc stem native)
  else (false, [])

/-- Modelled from the claim wording of C1: the priority chain that the
claim states for the visibility resolver, classifying by the immediate
parent lower-cased name, with the layer own name trimmed and lower-cased.
Compared against vis_rule, which is transcribed from the code. -/
def claim_visibility_rule (ac : List String) (target : String) (parentRaw nameRaw : String) :
    Bool :=
  if py_lower parentRaw = "bg" then true
  else if py_lower parentRaw = "base" ∨ py_lower parentRaw = "colors"
      ∨ py_lower parentRaw = "camera" then
    if py_strip (py_lower nameRaw) = py_lower target then true
    else if py_strip (py_lower nameRaw) ∈ ac then false
    else true
  else if py_lower parentRaw = "@main" then
    if py_strip (py_lower nameRaw) ∈ ac then decide (py_strip (py_lower nameRaw) = py_lower target)
    else true
  else if py_lower parentRaw ∈ ac then decide (py_lower parentRaw = py_lower target)
  else true

/-- Modelled from the claim wording of C4: start from a solid white RGB
canvas of the document size, walk the visible pixel layers in stored
bottom-to-top order, scale the alpha channel of each by its opacity, and
composite each at its stored offset.  Compared against
flattened_composite, which is transcribed from the code. -/
def claim_flatten (doc : Document) : Img :=
  ((Document.descendants doc).filter (fun pd => pd.2.visible && pd.2.pix.isSome)).foldl
    (fun canvas pd =>
      match pd.2.pix with
      | some layer_img => paste canvas (apply_opacity layer_img pd.2.opacity) pd.2.offX pd.2.offY
      | none => canvas)
    (Img.new_rgb doc.width doc.height ⟨255, 255, 255, 255⟩)

/-- Direct children data of the first top-level group with the given
name, after any transformation of the document. -/
def children_of_group (doc : Document) (g : String) : List LayerData :=
  match get_group_by_name doc g with
  | some t => t.kids.dataList
  | none => []

/-- Normalized key of a layer name: lower-cased then stripped, the form
under which names are compared against colors. -/
def layer_key (d : LayerData) : String := py_strip (py_lower d.name)

/-- Step 1 of set_layer_visibility_fixed on a single top-level tree (the
per-node action of show_container_groups). -/
def show_container_tree : LTree → LTree
| .node d f =>
  .node
    (if d.isGroup = true ∧ py_strip (py_lower d.name) ∈ ["bg", "base", "colors", "camera", "@main"]
      then { d with visible := true } else d)
    f

/-- Convenience constructor: a leaf layer with default attributes. -/
def leaf_layer (n : String) : LTree :=
  .node { name := n, visible := true, isGroup := false, pix := none, opacity := 1,
          offX := 0, offY := 0 } .nil

/-- Convenience constructor: a group layer with default attributes. -/
def group_layer (n : String) (cs : List LTree) : LTree :=
  .node { name := n, visible := true, isGroup := true, pix := none, opacity := 1,
          offX := 0, offY := 0 } (LForest.ofList cs)

/-- A well-formed sample document: the five required groups, two colors
present in all three color groups, and a metalware layer in the main
group. -/
def sample_doc : Document :=
  { width := 4
    height := 4
    layers := LForest.ofList [
      group_layer "bg" [leaf_layer "paper"],
      group_layer "base" [leaf_layer "red", leaf_layer "blue"],
      group_layer "colors" [leaf_layer "red", leaf_layer "blue"],
      group_layer "camera" [leaf_layer "red", leaf_layer "blue"],
      group_layer "@main" [leaf_layer "metalware 1", leaf_layer "steel"]] }

/-- Like sample_doc but the base group name carries surrounding
whitespace. -/
def ws_parent_doc : Document :=
  { width := 4
    height := 4
    layers := LForest.ofList [
      group_layer "bg" [leaf_layer "paper"],
      group_layer " base " [leaf_layer "red", leaf_layer "blue"],
      group_layer "colors" [leaf_layer "red", leaf_layer "blue"],
      group_layer "camera" [leaf_layer "red", leaf_layer "blue"],
      group_layer "@main" [leaf_layer "metalware 1", leaf_layer "steel"]] }

/-- Like sample_doc but without any metalware layer in the main group. -/
def no_metal_doc : Document :=
  { width := 4
    height := 4
    layers := LForest.ofList [
      group_layer "bg" [leaf_layer "paper"],
      group_layer "base" [leaf_layer "red", leaf_layer "blue"],
      group_layer "colors" [leaf_layer "red", leaf_layer "blue"],
      group_layer "camera" [leaf_layer "red", leaf_layer "blue"],
      group_layer "@main" [leaf_layer "steel"]] }

/-- Like sample_doc but with the bg group missing. -/
def no_bg_doc : Document :=
  { width := 4
    height := 4
    layers := LForest.ofList [
      group_layer "base" [leaf_layer "red", leaf_layer "blue"],
      group_layer "colors" [leaf_layer "red", leaf_layer "blue"],
      group_layer "camera" [leaf_layer "red", leaf_layer "blue"],
      group_layer "@main" [leaf_layer "metalware 1"]] }

/-- Like sample_doc but the base group holds two distinct sublayers that
both bear the name red. -/
def dup_doc : Document :=
  { width := 4
    height := 4
    layers := LForest.ofList [
      group_layer "bg" [leaf_layer "paper"],
      group_layer "base" [leaf_layer "red", leaf_layer "red", leaf_layer "blue"],
      group_layer "colors" [leaf_layer "red", leaf_layer "blue"],
      group_layer "camera" [leaf_layer "red", leaf_layer "blue"],
      group_layer "@main" [leaf_layer "metalware 1"]] }

/-- A small raster with an alpha channel, for the compositing witness. -/
def tiny_rgba_img : Img :=
  { width := 2, height := 2, hasAlpha := true, px := fun _ _ => ⟨10, 20, 30, 128⟩ }

/-- A small raster without an alpha channel, for the compositing witness. -/
def tiny_rgb_img : Img :=
  { width := 3, height := 2, hasAlpha := false, px := fun _ _ => ⟨5, 6, 7, 255⟩ }

/-- A document with raster content, for the compositing witness. -/
def flatten_demo_doc : Document :=
  { width := 4
    height := 4
    layers := LForest.ofList [
      LTree.node { name := "paper", visible := true, isGroup := false, pix := some tiny_rgb_img,
                   opacity := 1, offX := 0, offY := 0 } .nil,
      LTree.node { name := "overlay", visible := true, isGroup := false, pix := some tiny_rgba_img,
                   opacity := 1, offX := 1, offY := 1 } .nil,
      LTree.node { name := "extra", visible := false, isGroup := false, pix := some tiny_rgba_img,
                   opacity := 1, offX := 0, offY := 0 } .nil] }

/-- A degenerate document (unit width) driving the render into the debug
placeholder tier. -/
def thin_doc : Document :=
  { width := 1
    height := 5
    layers := LForest.ofList [
      group_layer "bg" [leaf_layer "paper"],
      group_layer "base" [leaf_layer "red"],
      group_layer "colors" [leaf_layer "red"],
      group_layer "camera" [leaf_layer "red"],
      group_layer "@main" [leaf_layer "metalware 1"]] }

/-- The transcription of the code rule coincides with the chain stated by
the claim. -/
theorem vis_rule_eq_claim_rule (ac : List String) (target parentRaw nameRaw : String) :
    vis_rule ac target parentRaw nameRaw = claim_visibility_rule ac target parentRaw nameRaw := by
  unfold vis_rule claim_visibility_rule
  by_cases h1 : py_lower parentRaw = "bg"
  · simp [h1]
  · by_cases h2 : py_lower parentRaw = "base"
    · simp [h1, h2]
    · by_cases h3 : py_lower parentRaw = "colors"
      · simp [h1, h2, h3]
      · by_cases h4 : py_lower parentRaw = "camera"
        · simp [h1, h2, h3, h4]
        · simp [h1, h2, h3, h4]

mutual
/-- Step 2 rewrites every layer of a subtree with the visibility computed
by vis_rule from its parent and own names. -/
theorem descWithParent_applyVis_tree (ac : List String) (target : String) :
    ∀ (parent : String) (t : LTree),
      LTree.descWithParent parent (LTree.applyVis ac target parent t)
      = (LTree.descWithParent parent t).map
          (fun pd => (pd.1, { pd.2 with visible := vis_rule ac target pd.1 pd.2.name }))
| parent, .node d f => by
  simp [LTree.applyVis, LTree.descWithParent,
    descWithParent_applyVis_forest ac target d.name f]
/-- Forest version of descWithParent_applyVis_tree. -/
theorem descWithParent_applyVis_forest (ac : List String) (target : String) :
    ∀ (parent : String) (f : LForest),
      LForest.descWithParent parent (LForest.applyVis ac target parent f)
      = (LForest.descWithParent parent f).map
          (fun pd => (pd.1, { pd.2 with visible := vis_rule ac target pd.1 pd.2.name }))
| _, .nil => by simp [LForest.applyVis, LForest.descWithParent]
| parent, .cons t f => by
  simp [LForest.applyVis, LForest.descWithParent,
    descWithParent_applyVis_tree ac target parent t,
    descWithParent_applyVis_forest ac target parent f]
end

/-- Step 1 never survives step 2: the per-descendant assignment ignores
the previous flag, so force-showing the container groups first does not
change the final assignment. -/
theorem applyVis_show_container_groups (ac : List String) (target : String) :
    ∀ f : LForest,
      LForest.applyVis ac target "root" (show_container_groups f)
      = LForest.applyVis ac target "root" f
| .nil => rfl
| .cons (.node d g) rest => by
  simp only [show_container_groups, LForest.applyVis, LTree.applyVis,
    applyVis_show_container_groups ac target rest]
  split
  · simp
  · simp

/-- C1: for every document and target color, the visibility resolver
assigns each layer a flag computed solely from its immediate parent raw
name and its own name by the first matching rule of the priority chain
spelled out in claim_visibility_rule: parent bg shows; parent base,
colors or camera shows iff the trimmed lower-cased own name equals the
target, hides other all_colors members, shows the rest; parent main
shows a color-named layer iff it is the target and shows non-color
layers; a parent named as a color shows iff that parent is the target;
everything else is shown. -/
theorem c1_visibility_rule_chain (doc : Document) (target : String) :
    Document.descendants (set_layer_visibility_fixed doc target)
    = (Document.descendants doc).map
        (fun pd =>
          (pd.1, { pd.2 with visible := claim_visibility_rule (all_colors doc) target pd.1 pd.2.name })) := by
  show LForest.descWithParent "root"
      (LForest.applyVis (all_colors doc) target "root" (show_container_groups doc.layers)) = _
  rw [applyVis_show_container_groups, descWithParent_applyVis_forest]
  unfold Document.descendants
  apply List.map_congr_left
  intro pd _
  rw [vis_rule_eq_claim_rule]

/-- C3 counterexample: surrounding whitespace is not always neutral.
Renaming the base group of sample_doc to a whitespace-padded variant
changes the computed visibility assignment (the red sublayer, hidden for
target blue, becomes visible because its parent no longer matches the
base rule and the padded name is in no color set), and padding the target
color itself also changes the assignment. -/
theorem c3_counterexample :
    ((Document.descendants (set_layer_visibility_fixed sample_doc "blue")).map
        (fun pd => pd.2.visible)
      ≠ (Document.descendants (set_layer_visibility_fixed ws_parent_doc "blue")).map
        (fun pd => pd.2.visible))
    ∧ ((Document.descendants (set_layer_visibility_fixed sample_doc "blue")).map
        (fun pd => pd.2.visible)
      ≠ (Document.descendants (set_layer_visibility_fixed sample_doc " blue")).map
        (fun pd => pd.2.visible)) := by
  decide

/-- C3 amended: only the layer own name is both lower-cased and trimmed
before comparison, so the computed visibility never depends on
surrounding whitespace in the layer own name; parent names and the
target color are lower-cased but not trimmed, and whitespace there can
change the assignment. -/
theorem c3_amended_own_name_trimming (ac : List String) (target parentRaw n1 n2 : String)
    (h : py_strip (py_lower n1) = py_strip (py_lower n2)) :
    vis_rule ac target parentRaw n1 = vis_rule ac target parentRaw n2 := by
  unfold vis_rule
  rw [h]

/-- Witness for the amended C3 theorem at a concrete padded name. -/
theorem c3_amended_witness :
    py_strip (py_lower " Red ") = py_strip (py_lower "red")
    ∧ vis_rule ["red"] "red" "base" " Red " = vis_rule ["red"] "red" "base" "red" :=
  ⟨by decide, c3_amended_own_name_trimming ["red"] "red" "base" " Red " "red" (by decide)⟩

/-- C7: structure validation returns false exactly when at least one of
the five required group names is missing among the top-level groups, for
any combination of missing groups; the result is a function of the
top-level group names alone, so the metalware check inside the main
group (metalware_missing_warning) can never make it false. -/
theorem c7_validate_structure (doc : Document) :
    (validate_psd_structure doc = false ↔ ∃ g ∈ required_groups, ¬ g ∈ top_group_names doc)
    ∧ ∀ doc2 : Document, top_group_names doc2 = top_group_names doc →
        validate_psd_structure doc2 = validate_psd_structure doc := by
  constructor
  · constructor
    · intro h
      by_contra hc
      push_neg at hc
      have : validate_psd_structure doc = true := by
        unfold validate_psd_structure
        rw [List.all_eq_true]
        intro g hg
        exact decide_eq_true (hc g hg)
      rw [this] at h
      exact Bool.noConfusion h
    · intro ⟨g, hg, hmem⟩
      unfold validate_psd_structure
      rw [List.all_eq_false]
      exact ⟨g, hg, by simpa using hmem⟩
  · intro doc2 h
    unfold validate_psd_structure
    rw [h]

/-- Witness for C7 at two concrete documents with equal top-level group
names differing exactly in the presence of a metalware layer. -/
theorem c7_witness :
    top_group_names no_metal_doc = top_group_names sample_doc
    ∧ metalware_missing_warning no_metal_doc = true
    ∧ metalware_missing_warning sample_doc = false
    ∧ validate_psd_structure no_metal_doc = validate_psd_structure sample_doc :=
  ⟨by decide, by decide, by decide,
    (c7_validate_structure sample_doc).2 no_metal_doc (by decide)⟩

/-- One flatten iteration never changes canvas dimensions. -/
theorem flatten_step_dims (canvas : Img) (pd : String × LayerData) :
    (flatten_step canvas pd).width = canvas.width
    ∧ (flatten_step canvas pd).height = canvas.height := by
  constructor
  all_goals
    unfold flatten_step
    split
  · split
    · rfl
    · rfl
  · rfl
  · split
    · rfl
    · rfl
  · rfl

/-- Folding flatten iterations keeps the initial canvas dimensions. -/
theorem foldl_flatten_dims (l : List (String × LayerData)) :
    ∀ canvas : Img, ((l.foldl flatten_step canvas).width = canvas.width
      ∧ (l.foldl flatten_step canvas).height = canvas.height) := by
  induction l with
  | nil => intro c; exact ⟨rfl, rfl⟩
  | cons hd tl ih =>
    intro c
    have h := flatten_step_dims c hd
    have h2 := ih (flatten_step c hd)
    simp only [List.foldl_cons]
    exact ⟨h2.1.trans h.1, h2.2.trans h.2⟩

/-- The manual flatten fallback always produces an image of the document
dimensions. -/
theorem flattened_composite_dims (doc : Document) :
    (flattened_composite doc).width = doc.width
    ∧ (flattened_composite doc).height = doc.height := by
  unfold flattened_composite
  exact foldl_flatten_dims (Document.descendants doc)
    (Img.new_rgb doc.width doc.height ⟨255, 255, 255, 255⟩)

/-- Conversion to RGB keeps the dimensions. -/
theorem to_rgb_dims (img : Img) :
    (to_rgb img).width = img.width ∧ (to_rgb img).height = img.height := by
  unfold to_rgb
  by_cases h : img.hasAlpha = true
  · rw [if_pos h]
    exact ⟨rfl, rfl⟩
  · rw [if_neg h]
    exact ⟨rfl, rfl⟩

/-- Tiers 2 and 3 always produce an image with both dimensions strictly
greater than one. -/
theorem fallback_render_dims (doc : Document) (color : String) :
    1 < (fallback_render doc color).img.width
    ∧ 1 < (fallback_render doc color).img.height := by
  unfold fallback_render
  by_cases h2 : 1 < (flattened_composite (set_layer_visibility_fixed doc color)).width
      ∧ 1 < (flattened_composite (set_layer_visibility_fixed doc color)).height
  · rw [if_pos h2]
    constructor
    · show 1 < (to_rgb (flattened_composite (set_layer_visibility_fixed doc color))).width
      rw [(to_rgb_dims (flattened_composite (set_layer_visibility_fixed doc color))).1]
      exact h2.1
    · show 1 < (to_rgb (flattened_composite (set_layer_visibility_fixed doc color))).height
      rw [(to_rgb_dims (flattened_composite (set_layer_visibility_fixed doc color))).2]
      exact h2.2
  · rw [if_neg h2]
    constructor
    · show 1 < debug_image.width
      decide
    · show 1 < debug_image.height
      decide

/-- Tier 1 only ever accepts an image with both dimensions strictly
greater than one. -/
theorem native_accepted_dims (native : Option Img) (img : Img)
    (h : native_accepted native = some img) : 1 < img.width ∧ 1 < img.height := by
  cases native with
  | none => exact Option.noConfusion h
  | some i =>
    have h2 : (if 1 < i.width ∧ 1 < i.height then some i else none) = some img := h
    by_cases hd : 1 < i.width ∧ 1 < i.height
    · rw [if_pos hd] at h2
      cases h2
      exact hd
    · rw [if_neg hd] at h2
      exact Option.noConfusion h2

/-- Every image the render pass returns, on every tier including the
debug placeholder, has both dimensions strictly greater than one. -/
theorem render_dims_pos (doc : Document) (color : String) (native : Option Img) :
    1 < (render_layer_combination_fixed doc color native).img.width
    ∧ 1 < (render_layer_combination_fixed doc color native).img.height := by
  unfold render_layer_combination_fixed
  cases hna : native_accepted native with
  | none => exact fallback_render_dims doc color
  | some img =>
    have hd := native_accepted_dims native img hna
    have ht := to_rgb_dims img
    exact ⟨by show 1 < (to_rgb img).width; rw [ht.1]; exact hd.1,
      by show 1 < (to_rgb img).height; rw [ht.2]; exact hd.2⟩

/-- The dimension check of generate_variants never drops a color: every
rendered image passes it, so the produced variants are exactly one per
valid color, in order. -/
theorem generate_variants_colors (doc : Document) (stem : String)
    (native : String → Option Img) :
    (generate_variants doc stem native).map Variant.color = valid_color_names doc := by
  unfold generate_variants
  have step : ∀ l : List String,
      (l.filterMap (fun color =>
        if (render_layer_combination_fixed doc color (native color)).img.width ≤ 1
            ∨ (render_layer_combination_fixed doc color (native color)).img.height ≤ 1 then none
        else some
          { filename := stem ++ "-" ++ color ++ "-metalware_1.jpg"
            color := color
            width := (render_layer_combination_fixed doc color (native color)).img.width
            height := (render_layer_combination_fixed doc color (native color)).img.height
            : Variant })).map Variant.color = l := by
    intro l
    induction l with
    | nil => rfl
    | cons c t ih =>
      have hd := render_dims_pos doc c (native c)
      have hcond : ¬((render_layer_combination_fixed doc c (native c)).img.width ≤ 1
          ∨ (render_layer_combination_fixed doc c (native c)).img.height ≤ 1) := by
        push_neg
        exact ⟨hd.1, hd.2⟩
      rw [List.filterMap_cons, if_neg hcond, List.map_cons, ih]
  exact step (valid_color_names doc)

/-- Membership in the valid color list is exactly membership in all three
color groups. -/
theorem mem_valid_color_names (doc : Document) (c : String) :
    c ∈ valid_color_names doc ↔ c ∈ get_layer_colors doc "camera"
      ∧ c ∈ get_layer_colors doc "colors" ∧ c ∈ get_layer_colors doc "base" := by
  unfold valid_color_names validate_color_pairs
  rw [List.filterMap_map]
  constructor
  · intro h
    obtain ⟨a, ha, hfa⟩ := List.mem_filterMap.mp h
    by_cases hcb : (decide (a ∈ get_layer_colors doc "colors")
        && decide (a ∈ get_layer_colors doc "base")) = true
    · have : a = c := by
        have := hfa
        simp only [Function.comp] at this
        rw [if_pos hcb] at this
        exact Option.some.inj this
      subst this
      simp only [Bool.and_eq_true, decide_eq_true_eq] at hcb
      exact ⟨ha, hcb.1, hcb.2⟩
    · exfalso
      have := hfa
      simp only [Function.comp] at this
      rw [if_neg hcb] at this
      exact Option.noConfusion this
  · intro ⟨h1, h2, h3⟩
    apply List.mem_filterMap.mpr
    refine ⟨c, h1, ?_⟩
    simp only [Function.comp]
    rw [if_pos (by simp [h2, h3])]

/-- C2: the colors for which a variant is generated are exactly the
intersection of the color names of the camera, colors and base groups: a
color missing from any of the three groups is not in the valid set and
receives no variant. -/
theorem c2_valid_colors_intersection (doc : Document) (c stem : String)
    (native : String → Option Img) :
    (c ∈ valid_color_names doc ↔ c ∈ get_layer_colors doc "camera"
      ∧ c ∈ get_layer_colors doc "colors" ∧ c ∈ get_layer_colors doc "base")
    ∧ (generate_variants doc stem native).map Variant.color = valid_color_names doc :=
  ⟨mem_valid_color_names doc c, generate_variants_colors doc stem native⟩

/-- C9: every image returned by the render pass, the debug placeholder
included, has both dimensions strictly greater than one, and consequently
the dimension check of generate_variants never drops a color: each valid
color, also one whose render fell through to the placeholder tier, yields
exactly one variant entry. -/
theorem c9_render_dimensions (doc : Document) (target stem : String) (native : Option Img)
    (o : String → Option Img) :
    (1 < (render_layer_combination_fixed doc target native).img.width
      ∧ 1 < (render_layer_combination_fixed doc target native).img.height)
    ∧ (generate_variants doc stem o).map Variant.color = valid_color_names doc :=
  ⟨render_dims_pos doc target native, generate_variants_colors doc stem o⟩

/-- C10: the variant sequence follows the camera group: the valid colors
are the camera color list (first-appearance order of the normalized
immediate children of the camera group, de-duplicated) filtered by
membership in the colors and base groups, and the generated variants
carry exactly these colors in that order. -/
theorem c10_variant_order (doc : Document) (stem : String) (native : String → Option Img) :
    valid_color_names doc
      = (get_layer_colors doc "camera").filter
          (fun c => decide (c ∈ get_layer_colors doc "colors")
            && decide (c ∈ get_layer_colors doc "base"))
    ∧ (generate_variants doc stem native).map Variant.color = valid_color_names doc := by
  refine ⟨?_, generate_variants_colors doc stem native⟩
  unfold valid_color_names validate_color_pairs
  rw [List.filterMap_map]
  have step : ∀ l : List String,
      l.filterMap ((fun p : String × Bool => if p.2 then some p.1 else none)
          ∘ (fun c => (c, decide (c ∈ get_layer_colors doc "colors")
            && decide (c ∈ get_layer_colors doc "base"))))
      = l.filter (fun c => decide (c ∈ get_layer_colors doc "colors")
          && decide (c ∈ get_layer_colors doc "base")) := by
    intro l
    induction l with
    | nil => rfl
    | cons c t ih =>
      rw [List.filterMap_cons, List.filter_cons]
      by_cases hc : (decide (c ∈ get_layer_colors doc "colors")
          && decide (c ∈ get_layer_colors doc "base")) = true
      · simp only [Function.comp]
        rw [if_pos hc]
        simp only [hc, if_true]
        rw [ih]
      · simp only [Function.comp]
        rw [if_neg hc]
        simp only [hc]
        rw [ih]
        simp
  exact step (get_layer_colors doc "camera")

/-- A hidden layer contributes nothing to the flatten fold. -/
theorem flatten_step_not_visible (canvas : Img) (pd : String × LayerData)
    (h : pd.2.visible = false) : flatten_step canvas pd = canvas := by
  simp [flatten_step, h]

/-- A layer without raster content contributes nothing to the flatten
fold. -/
theorem flatten_step_none (canvas : Img) (pd : String × LayerData)
    (hv : pd.2.visible = true) (hp : pd.2.pix = none) : flatten_step canvas pd = canvas := by
  simp [flatten_step, hv, hp]

/-- A visible pixel layer is pasted, with its alpha scaled when the
opacity is below one and the raster carries alpha. -/
theorem flatten_step_some (canvas : Img) (pd : String × LayerData) (img : Img)
    (hv : pd.2.visible = true) (hp : pd.2.pix = some img) :
    flatten_step canvas pd
    = paste canvas
        (if pd.2.opacity < 1 ∧ img.hasAlpha = true then apply_opacity img pd.2.opacity else img)
        pd.2.offX pd.2.offY := by
  simp [flatten_step, hv, hp]

/-- Scaling alpha by opacity one is the identity. -/
theorem apply_opacity_one (img : Img) : apply_opacity img 1 = img := by
  unfold apply_opacity
  cases img with
  | mk w h al px =>
    congr 1
    funext x y
    rw [mul_one]

/-- On a raster without alpha, scaling the (absent) alpha channel does
not change what paste produces. -/
theorem paste_apply_opacity_no_alpha (canvas img : Img) (o : ℚ) (l t : Int)
    (h : img.hasAlpha = false) :
    paste canvas (apply_opacity img o) l t = paste canvas img l t := by
  unfold paste apply_opacity
  congr 1
  funext x y
  dsimp only
  split_ifs with h1 h2
  · exact absurd h2 (by simp [h])
  · rfl
  · rfl

/-- The code fold over all descendants equals the claim fold over the
visible pixel layers, provided every opacity is at most one. -/
theorem flatten_fold_eq (l : List (String × LayerData)) :
    ∀ canvas : Img, (∀ pd ∈ l, pd.2.opacity ≤ 1) →
      l.foldl flatten_step canvas
      = ((l.filter (fun pd => pd.2.visible && pd.2.pix.isSome)).foldl
          (fun canvas pd =>
            match pd.2.pix with
            | some layer_img =>
              paste canvas (apply_opacity layer_img pd.2.opacity) pd.2.offX pd.2.offY
            | none => canvas) canvas) := by
  induction l with
  | nil => intro canvas _; rfl
  | cons hd tl ih =>
    intro canvas h
    have hh : hd.2.opacity ≤ 1 := h hd (List.mem_cons_self hd tl)
    have ht : ∀ pd ∈ tl, pd.2.opacity ≤ 1 := fun pd hp => h pd (List.mem_cons_of_mem hd hp)
    by_cases hv : hd.2.visible = true
    · cases hpx : hd.2.pix with
      | none =>
        have hcond : ¬ ((hd.2.visible && hd.2.pix.isSome) = true) := by simp [hpx]
        rw [List.foldl_cons, flatten_step_none canvas hd hv hpx, List.filter_cons,
          if_neg hcond]
        exact ih canvas ht
      | some img =>
        have hcond : (hd.2.visible && hd.2.pix.isSome) = true := by simp [hv, hpx]
        rw [List.foldl_cons, flatten_step_some canvas hd img hv hpx, List.filter_cons,
          if_pos hcond, List.foldl_cons]
        have harm : (match hd.2.pix with
            | some layer_img =>
              paste canvas (apply_opacity layer_img hd.2.opacity) hd.2.offX hd.2.offY
            | none => canvas)
            = paste canvas (apply_opacity img hd.2.opacity) hd.2.offX hd.2.offY := by
          rw [hpx]
        rw [harm]
        by_cases ho : hd.2.opacity < 1 ∧ img.hasAlpha = true
        · rw [if_pos ho]
          exact ih _ ht
        · rw [if_neg ho]
          push_neg at ho
          by_cases ha : img.hasAlpha = true
          · by_cases hlt : hd.2.opacity < 1
            · exact absurd ha (ho hlt)
            · have h1 : hd.2.opacity = 1 := le_antisymm hh (not_lt.mp hlt)
              rw [h1, apply_opacity_one]
              exact ih _ ht
          · have hfa : img.hasAlpha = false := by
              revert ha
              cases img.hasAlpha
              · intro _; rfl
              · intro hc; exact absurd rfl hc
            rw [paste_apply_opacity_no_alpha canvas img hd.2.opacity hd.2.offX hd.2.offY hfa]
            exact ih _ ht
    · have hvf : hd.2.visible = false := by
        revert hv
        cases hd.2.visible
        · intro _; rfl
        · intro hc; exact absurd rfl hc
      have hcond : ¬ ((hd.2.visible && hd.2.pix.isSome) = true) := by simp [hvf]
      rw [List.foldl_cons, flatten_step_not_visible canvas hd hvf, List.filter_cons,
        if_neg hcond]
      exact ih canvas ht

/-- C4: when the native composite fails or is degenerate, the manual
flatten fallback starts from a solid white RGB canvas of the document
size, walks the visible pixel layers in stored bottom-to-top order,
scales the alpha channel of each layer by its opacity (a value in the 0
to 1 range, as the data model requires), and alpha-composites each at
its stored offset: the code fold (flattened_composite) coincides with
that description (claim_flatten). -/
theorem c4_manual_flatten (doc : Document)
    (h : ∀ pd ∈ Document.descendants doc, pd.2.opacity ≤ 1) :
    flattened_composite doc = claim_flatten doc := by
  unfold flattened_composite claim_flatten
  exact flatten_fold_eq (Document.descendants doc)
    (Img.new_rgb doc.width doc.height ⟨255, 255, 255, 255⟩) h

/-- Witness for C4 at a concrete document with raster content. -/
theorem c4_witness :
    (∀ pd ∈ Document.descendants flatten_demo_doc, pd.2.opacity ≤ 1)
    ∧ flattened_composite flatten_demo_doc = claim_flatten flatten_demo_doc :=
  ⟨by decide, c4_manual_flatten flatten_demo_doc (by decide)⟩

/-- C5: when the native composite fails or is degenerate and the manual
flatten fallback is degenerate too, the render pass does not fail: it
returns the fixed-size 800 by 600 debug placeholder whose diagnostic
texts carry the target color name and the outcome of the visibility
self-check, and the batch still yields one variant per valid color. -/
theorem c5_debug_placeholder (doc : Document) (target stem : String) (native : Option Img)
    (o : String → Option Img)
    (hnative : ∀ img : Img, native = some img → ¬ (1 < img.width ∧ 1 < img.height))
    (hdoc : doc.width ≤ 1 ∨ doc.height ≤ 1) :
    render_layer_combination_fixed doc target native
      = { img := debug_image
          debug_texts := ["Render failed for: " ++ target,
            "Validation: " ++
              (if validate_visibility_settings doc (set_layer_visibility_fixed doc target)
                  target then "PASSED" else "FAILED")] }
    ∧ debug_image.width = 800 ∧ debug_image.height = 600
    ∧ (generate_variants doc stem o).map Variant.color = valid_color_names doc := by
  have hna : native_accepted native = none := by
    cases native with
    | none => rfl
    | some img =>
      show (if 1 < img.width ∧ 1 < img.height then some img else none) = none
      exact if_neg (hnative img rfl)
  have hflatdim := flattened_composite_dims (set_layer_visibility_fixed doc target)
  have hw2 : (flattened_composite (set_layer_visibility_fixed doc target)).width = doc.width :=
    hflatdim.1
  have hh2 : (flattened_composite (set_layer_visibility_fixed doc target)).height = doc.height :=
    hflatdim.2
  have hcond : ¬ (1 < (flattened_composite (set_layer_visibility_fixed doc target)).width
      ∧ 1 < (flattened_composite (set_layer_visibility_fixed doc target)).height) := by
    intro hc
    rcases hdoc with hd | hd
    · rw [hw2] at hc
      omega
    · rw [hh2] at hc
      omega
  refine ⟨?_, rfl, rfl, generate_variants_colors doc stem o⟩
  unfold render_layer_combination_fixed
  rw [hna]
  show fallback_render doc target = _
  unfold fallback_render
  rw [if_neg hcond]

/-- Witness for C5 at a degenerate concrete document. -/
theorem c5_witness :
    (∀ img : Img, (none : Option Img) = some img → ¬ (1 < img.width ∧ 1 < img.height))
    ∧ (thin_doc.width ≤ 1 ∨ thin_doc.height ≤ 1)
    ∧ render_layer_combination_fixed thin_doc "red" none
      = { img := debug_image
          debug_texts := ["Render failed for: " ++ "red",
            "Validation: " ++
              (if validate_visibility_settings thin_doc
                  (set_layer_visibility_fixed thin_doc "red") "red" then "PASSED"
                else "FAILED")] } :=
  ⟨fun img h => Option.noConfusion h, Or.inl (by decide),
    (c5_debug_placeholder thin_doc "red" "s" none (fun _ => none)
      (fun img h => Option.noConfusion h) (Or.inl (by decide))).1⟩

/-- C6: process succeeds exactly when the variant list is non-empty; a
document failing structure validation yields (false, empty) before any
rendering, and a run with zero generated variants yields (false, empty)
as well. -/
theorem c6_process_success (loaded : Option Document) (stem : String)
    (native : String → Option Img) :
    ((process loaded stem native).1 = true ↔ (process loaded stem native).2 ≠ [])
    ∧ (∀ doc, loaded = some doc → validate_psd_structure doc = false →
        process loaded stem native = (false, []))
    ∧ (∀ doc, loaded = some doc → generate_variants doc stem native = [] →
        process loaded stem native = (false, [])) := by
  refine ⟨?_, ?_, ?_⟩
  · cases loaded with
    | none => simp [process]
    | some doc =>
      have hR : process (some doc) stem native
          = (if validate_psd_structure doc = true then
              if (generate_variants doc stem native).isEmpty = true
                then ((false, []) : Bool × List Variant)
              else (true, generate_variants doc stem native)
            else (false, [])) := rfl
      rw [hR]
      by_cases hv : validate_psd_structure doc = true
      · rw [if_pos hv]
        by_cases he : (generate_variants doc stem native).isEmpty = true
        · rw [if_pos he]
          simp_all [List.isEmpty_iff]
        · rw [if_neg he]
          simp_all [List.isEmpty_iff]
      · rw [if_neg hv]
        simp
  · intro doc hl hval
    subst hl
    have hR : process (some doc) stem native
        = (if validate_psd_structure doc = true then
            if (generate_variants doc stem native).isEmpty = true
              then ((false, []) : Bool × List Variant)
            else (true, generate_variants doc stem native)
          else (false, [])) := rfl
    rw [hR]
    rw [if_neg (by simp [hval])]
  · intro doc hl hvar
    subst hl
    have hR : process (some doc) stem native
        = (if validate_psd_structure doc = true then
            if (generate_variants doc stem native).isEmpty = true
              then ((false, []) : Bool × List Variant)
            else (true, generate_variants doc stem native)
          else (false, [])) := rfl
    rw [hR]
    by_cases hv : validate_psd_structure doc = true
    · rw [if_pos hv, hvar]
      rfl
    · rw [if_neg hv]

/-- Witness for C6 at a concrete document missing the bg group. -/
theorem c6_witness :
    validate_psd_structure no_bg_doc = false
    ∧ process (some no_bg_doc) "s" (fun _ => none) = (false, []) :=
  ⟨by decide,
    (c6_process_success (some no_bg_doc) "s" (fun _ => none)).2.1 no_bg_doc rfl (by decide)⟩

/-- A found group really is a group with the requested exact name. -/
theorem find_group_spec : ∀ (f : LForest) (g : String) (t : LTree),
    find_group f g = some t → t.data.isGroup = true ∧ t.data.name = g
| .nil, _, _ => fun h => Option.noConfusion h
| .cons t0 f, g, t => fun h => by
  rw [show find_group (.cons t0 f) g
      = (if t0.data.isGroup = true ∧ t0.data.name = g then some t0 else find_group f g)
      from rfl] at h
  by_cases hc : t0.data.isGroup = true ∧ t0.data.name = g
  · rw [if_pos hc] at h
    cases h
    exact hc
  · rw [if_neg hc] at h
    exact find_group_spec f g t h

/-- The visibility pass keeps the data of a node except its flag. -/
theorem applyVis_data (ac : List String) (target parent : String) (t : LTree) :
    (LTree.applyVis ac target parent t).data
    = { t.data with visible := vis_rule ac target parent t.data.name } := by
  cases t with
  | node d f => rfl

/-- Step 1 keeps names and group flags. -/
theorem show_container_tree_name (t : LTree) :
    (show_container_tree t).data.name = t.data.name
    ∧ (show_container_tree t).data.isGroup = t.data.isGroup := by
  cases t with
  | node d f =>
    by_cases hc : d.isGroup = true
        ∧ py_strip (py_lower d.name) ∈ ["bg", "base", "colors", "camera", "@main"]
    · rw [show show_container_tree (.node d f) = .node { d with visible := true } f from by
        rw [show show_container_tree (.node d f)
            = LTree.node (if d.isGroup = true
                ∧ py_strip (py_lower d.name) ∈ ["bg", "base", "colors", "camera", "@main"]
              then { d with visible := true } else d) f from rfl, if_pos hc]]
      exact ⟨rfl, rfl⟩
    · rw [show show_container_tree (.node d f) = .node d f from by
        rw [show show_container_tree (.node d f)
            = LTree.node (if d.isGroup = true
                ∧ py_strip (py_lower d.name) ∈ ["bg", "base", "colors", "camera", "@main"]
              then { d with visible := true } else d) f from rfl, if_neg hc]]
      exact ⟨rfl, rfl⟩

/-- Step 1 acts pointwise on top-level trees. -/
theorem show_container_groups_cons (t : LTree) (f : LForest) :
    show_container_groups (.cons t f) = .cons (show_container_tree t) (show_container_groups f) := by
  cases t with
  | node d g => rfl

/-- Group lookup commutes with the visibility pass. -/
theorem find_group_applyVis (ac : List String) (target parent : String) :
    ∀ (f : LForest) (g : String),
      find_group (LForest.applyVis ac target parent f) g
      = (find_group f g).map (LTree.applyVis ac target parent)
| .nil, g => rfl
| .cons t f, g => by
  rw [show LForest.applyVis ac target parent (.cons t f)
      = .cons (LTree.applyVis ac target parent t) (LForest.applyVis ac target parent f)
      from rfl]
  rw [show find_group
        (.cons (LTree.applyVis ac target parent t) (LForest.applyVis ac target parent f)) g
      = (if (LTree.applyVis ac target parent t).data.isGroup = true
            ∧ (LTree.applyVis ac target parent t).data.name = g
          then some (LTree.applyVis ac target parent t)
          else find_group (LForest.applyVis ac target parent f) g)
      from rfl]
  rw [show find_group (.cons t f) g
      = (if t.data.isGroup = true ∧ t.data.name = g then some t else find_group f g)
      from rfl]
  rw [applyVis_data ac target parent t]
  dsimp only
  by_cases hc : t.data.isGroup = true ∧ t.data.name = g
  · rw [if_pos hc, if_pos hc]
    rfl
  · rw [if_neg hc, if_neg hc]
    exact find_group_applyVis ac target parent f g

/-- Group lookup commutes with step 1. -/
theorem find_group_show_containers :
    ∀ (f : LForest) (g : String),
      find_group (show_container_groups f) g = (find_group f g).map show_container_tree
| .nil, _ => rfl
| .cons t f, g => by
  rw [show_container_groups_cons]
  rw [show find_group (.cons (show_container_tree t) (show_container_groups f)) g
      = (if (show_container_tree t).data.isGroup = true ∧ (show_container_tree t).data.name = g
          then some (show_container_tree t) else find_group (show_container_groups f) g)
      from rfl]
  rw [show find_group (.cons t f) g
      = (if t.data.isGroup = true ∧ t.data.name = g then some t else find_group f g)
      from rfl]
  rw [(show_container_tree_name t).1, (show_container_tree_name t).2]
  by_cases hc : t.data.isGroup = true ∧ t.data.name = g
  · rw [if_pos hc, if_pos hc]
    rfl
  · rw [if_neg hc, if_neg hc]
    exact find_group_show_containers f g

/-- The visibility pass rewrites immediate children data pointwise. -/
theorem dataList_applyVis (ac : List String) (target parent : String) :
    ∀ f : LForest,
      (LForest.applyVis ac target parent f).dataList
      = f.dataList.map (fun c => { c with visible := vis_rule ac target parent c.name })
| .nil => rfl
| .cons t f => by
  rw [show LForest.applyVis ac target parent (.cons t f)
      = .cons (LTree.applyVis ac target parent t) (LForest.applyVis ac target parent f)
      from rfl]
  rw [show (LForest.cons (LTree.applyVis ac target parent t)
        (LForest.applyVis ac target parent f)).dataList
      = (LTree.applyVis ac target parent t).data
        :: (LForest.applyVis ac target parent f).dataList
      from rfl]
  rw [applyVis_data ac target parent t, dataList_applyVis ac target parent f]
  rw [show (LForest.cons t f).dataList = t.data :: f.dataList from rfl, List.map_cons]

/-- Direct children of a found group. -/
theorem children_of_group_eq (doc : Document) (g : String) (t : LTree)
    (h : get_group_by_name doc g = some t) :
    children_of_group doc g = t.kids.dataList := by
  unfold children_of_group
  rw [h]

/-- Group lookup on the resolved document finds the transformed group. -/
theorem get_group_resolved (doc : Document) (target g : String) (t : LTree)
    (hf : get_group_by_name doc g = some t) :
    get_group_by_name (set_layer_visibility_fixed doc target) g
    = some (LTree.applyVis (all_colors doc) target "root" (show_container_tree t)) := by
  show find_group (LForest.applyVis (all_colors doc) target "root"
      (show_container_groups doc.layers)) g = _
  rw [find_group_applyVis, find_group_show_containers]
  rw [show find_group doc.layers g = get_group_by_name doc g from rfl, hf]
  rfl

/-- Direct children of a group after the resolver: the original children
data with the flag recomputed from the group name as parent. -/
theorem children_of_group_resolved (doc : Document) (target g : String) (t : LTree)
    (hf : get_group_by_name doc g = some t) :
    children_of_group (set_layer_visibility_fixed doc target) g
    = t.kids.dataList.map
        (fun c => { c with visible := vis_rule (all_colors doc) target g c.name }) := by
  rw [children_of_group_eq _ _ _ (get_group_resolved doc target g t hf)]
  cases t with
  | node d f0 =>
    have hname : d.name = g := (find_group_spec doc.layers g _ hf).2
    have hkids : (LTree.applyVis (all_colors doc) target "root"
        (show_container_tree (.node d f0))).kids
        = LForest.applyVis (all_colors doc) target d.name f0 := by
      by_cases hc : d.isGroup = true
          ∧ py_strip (py_lower d.name) ∈ ["bg", "base", "colors", "camera", "@main"]
      · rw [show show_container_tree (.node d f0) = .node { d with visible := true } f0 from by
          rw [show show_container_tree (.node d f0)
              = LTree.node (if d.isGroup = true
                  ∧ py_strip (py_lower d.name) ∈ ["bg", "base", "colors", "camera", "@main"]
                then { d with visible := true } else d) f0 from rfl, if_pos hc]]
        rfl
      · rw [show show_container_tree (.node d f0) = .node d f0 from by
          rw [show show_container_tree (.node d f0)
              = LTree.node (if d.isGroup = true
                  ∧ py_strip (py_lower d.name) ∈ ["bg", "base", "colors", "camera", "@main"]
                then { d with visible := true } else d) f0 from rfl, if_neg hc]]
        rfl
    rw [hkids, hname, dataList_applyVis]
    rfl

/-- Every member of the color fold is the normalized name of some child. -/
theorem collect_colors_fold_mem (x : String) :
    ∀ (ds : List LayerData) (acc : List String),
      x ∈ ds.foldl (fun colors d =>
        if d.name ≠ "" then
          if py_strip (py_lower d.name) ≠ "" ∧ ¬ py_strip (py_lower d.name) ∈ colors
            then colors ++ [py_strip (py_lower d.name)] else colors
        else colors) acc →
      x ∈ acc ∨ ∃ d ∈ ds, py_strip (py_lower d.name) = x := by
  intro ds
  induction ds with
  | nil => intro acc h; exact Or.inl h
  | cons d t ih =>
    intro acc h
    rw [List.foldl_cons] at h
    rcases ih _ h with hacc | ⟨d2, hd2, hk⟩
    · by_cases hn : d.name ≠ ""
      · rw [if_pos hn] at hacc
        by_cases h2 : py_strip (py_lower d.name) ≠ "" ∧ ¬ py_strip (py_lower d.name) ∈ acc
        · rw [if_pos h2] at hacc
          rcases List.mem_append.mp hacc with ha | hb
          · exact Or.inl ha
          · have : x = py_strip (py_lower d.name) := List.mem_singleton.mp hb
            exact Or.inr ⟨d, List.mem_cons_self d t, this.symm⟩
        · rw [if_neg h2] at hacc
          exact Or.inl hacc
      · rw [if_neg hn] at hacc
        exact Or.inl hacc
    · exact Or.inr ⟨d2, List.mem_cons_of_mem d hd2, hk⟩

/-- A color of a group names some direct child of that group. -/
theorem get_layer_colors_mem (doc : Document) (g x : String)
    (h : x ∈ get_layer_colors doc g) :
    ∃ t, get_group_by_name doc g = some t
      ∧ ∃ d ∈ t.kids.dataList, py_strip (py_lower d.name) = x := by
  unfold get_layer_colors at h
  cases hf : get_group_by_name doc g with
  | none =>
    rw [hf] at h
    exact absurd h (List.not_mem_nil x)
  | some t =>
    rw [hf] at h
    have h2 : x ∈ collect_colors t.kids.dataList := h
    rcases collect_colors_fold_mem x t.kids.dataList [] h2 with h3 | h3
    · exact absurd h3 (List.not_mem_nil x)
    · exact ⟨t, rfl, h3⟩

/-- Inside one of the three color groups the rule chain collapses to the
target comparison. -/
theorem vis_rule_color_group (ac : List String) (target n g : String)
    (hg : g = "base" ∨ g = "colors" ∨ g = "camera") :
    vis_rule ac target g n
    = (if py_strip (py_lower n) = py_lower target then true
       else if py_strip (py_lower n) ∈ ac then false else true) := by
  rcases hg with rfl | rfl | rfl
  · unfold vis_rule
    rw [if_neg (show ¬ py_lower "base" = "bg" by decide),
      if_pos (show py_lower "base" = "base" by decide)]
  · unfold vis_rule
    rw [if_neg (show ¬ py_lower "colors" = "bg" by decide),
      if_neg (show ¬ py_lower "colors" = "base" by decide),
      if_pos (show py_lower "colors" = "colors" by decide)]
  · unfold vis_rule
    rw [if_neg (show ¬ py_lower "camera" = "bg" by decide),
      if_neg (show ¬ py_lower "camera" = "base" by decide),
      if_neg (show ¬ py_lower "camera" = "colors" by decide),
      if_pos (show py_lower "camera" = "camera" by decide)]

/-- C8 counterexample: in a document whose base group holds two distinct
sublayers both named red, resolving for the valid target red leaves two
color-named direct children of the base group visible, so exactly one
color-named sublayer being visible fails as stated. -/
theorem c8_counterexample :
    (children_of_group (set_layer_visibility_fixed dup_doc "red") "base").countP
        (fun d => decide (layer_key d ∈ all_colors dup_doc) && d.visible) = 2
    ∧ ¬ ((children_of_group (set_layer_visibility_fixed dup_doc "red") "base").countP
        (fun d => decide (layer_key d ∈ all_colors dup_doc) && d.visible) = 1) := by
  decide

/-- C8 amended: after resolving for a target color that is a color of the
group, a color-named direct child of any of the three groups is visible
exactly when its normalized name equals the target; at least one such
child is visible; and when the direct children bear pairwise distinct
normalized names, exactly one color-named child is visible. -/
theorem c8_exactly_one_amended (doc : Document) (target g : String)
    (hg : g = "base" ∨ g = "colors" ∨ g = "camera")
    (htg : target ∈ get_layer_colors doc g)
    (htl : py_lower target = target) :
    (∀ d ∈ children_of_group (set_layer_visibility_fixed doc target) g,
        layer_key d ∈ all_colors doc → (d.visible = true ↔ layer_key d = target))
    ∧ (∃ d ∈ children_of_group (set_layer_visibility_fixed doc target) g,
        layer_key d = target ∧ d.visible = true)
    ∧ (((children_of_group doc g).map layer_key).Nodup →
        (children_of_group (set_layer_visibility_fixed doc target) g).countP
          (fun d => decide (layer_key d ∈ all_colors doc) && d.visible) = 1) := by
  obtain ⟨t, hf, d0, hd0, hk0⟩ := get_layer_colors_mem doc g target htg
  have hchild := children_of_group_resolved doc target g t hf
  have horig : children_of_group doc g = t.kids.dataList := children_of_group_eq doc g t hf
  have hrule : ∀ c : LayerData, vis_rule (all_colors doc) target g c.name
      = (if layer_key c = target then true
         else if layer_key c ∈ all_colors doc then false else true) := by
    intro c
    rw [vis_rule_color_group (all_colors doc) target c.name g hg, htl]
    rfl
  have htarget_ac : target ∈ all_colors doc := by
    rcases hg with rfl | rfl | rfl <;> simp [all_colors, List.mem_append, htg]
  refine ⟨?_, ?_, ?_⟩
  · intro d hd hdk
    rw [hchild] at hd
    obtain ⟨c, hc, rfl⟩ := List.mem_map.mp hd
    have hlk : layer_key { c with visible := vis_rule (all_colors doc) target g c.name }
        = layer_key c := rfl
    rw [hlk] at hdk
    show vis_rule (all_colors doc) target g c.name = true ↔ layer_key c = target
    rw [hrule c]
    by_cases hkey : layer_key c = target
    · rw [if_pos hkey]
      simp [hkey]
    · rw [if_neg hkey, if_pos hdk]
      simp [hkey]
  · refine ⟨{ d0 with visible := vis_rule (all_colors doc) target g d0.name }, ?_, ?_, ?_⟩
    · rw [hchild]
      exact List.mem_map.mpr ⟨d0, hd0, rfl⟩
    · show layer_key d0 = target
      exact hk0
    · show vis_rule (all_colors doc) target g d0.name = true
      rw [hrule d0, if_pos (show layer_key d0 = target from hk0)]
  · intro hnodup
    rw [hchild, List.countP_map]
    have hpt : ∀ c ∈ t.kids.dataList,
        ((fun d => decide (layer_key d ∈ all_colors doc) && d.visible) ∘
          (fun c => { c with visible := vis_rule (all_colors doc) target g c.name })) c
        = (layer_key c == target) := by
      intro c _
      show (decide (layer_key c ∈ all_colors doc)
          && vis_rule (all_colors doc) target g c.name) = (layer_key c == target)
      rw [hrule c]
      by_cases hkey : layer_key c = target
      · rw [if_pos hkey]
        simp [hkey, htarget_ac]
      · rw [if_neg hkey]
        by_cases hac : layer_key c ∈ all_colors doc
        · rw [if_pos hac]
          simp [hkey]
        · rw [if_neg hac]
          simp [hac, hkey]
    have hpt2 : ∀ x ∈ t.kids.dataList,
        (((fun d => decide (layer_key d ∈ all_colors doc) && d.visible) ∘
          (fun c => { c with visible := vis_rule (all_colors doc) target g c.name })) x = true
          ↔ (layer_key x == target) = true) := by
      intro x hx
      rw [hpt x hx]
    rw [List.countP_congr hpt2]
    have hcnt : (t.kids.dataList.countP (fun c => layer_key c == target))
        = (t.kids.dataList.map layer_key).count target := by
      rw [List.count, List.countP_map]
      rfl
    rw [hcnt]
    have hmem2 : target ∈ t.kids.dataList.map layer_key :=
      List.mem_map.mpr ⟨d0, hd0, hk0⟩
    have hnd : (t.kids.dataList.map layer_key).Nodup := by rwa [horig] at hnodup
    exact List.count_eq_one_of_mem hnd hmem2

/-- Witness for the amended C8 theorem at a well-formed document. -/
theorem c8_amended_witness :
    ("base" = "base" ∨ "base" = "colors" ∨ "base" = "camera")
    ∧ "red" ∈ get_layer_colors sample_doc "base"
    ∧ py_lower "red" = "red"
    ∧ ((children_of_group sample_doc "base").map layer_key).Nodup
    ∧ (children_of_group (set_layer_visibility_fixed sample_doc "red") "base").countP
        (fun d => decide (layer_key d ∈ all_colors sample_doc) && d.visible) = 1 :=
  ⟨Or.inl rfl, by decide, by decide, by decide,
    (c8_exactly_one_amended sample_doc "red" "base" (Or.inl rfl) (by decide) (by decide)).2.2
      (by decide)⟩
